import Mathlib

/-!
Shallow embedding of `qbt_migrate/classes.py` (classes `QBTBatchMove` and
`FastResume`) together with the small amount of string machinery their
behaviour depends on (Python `str.replace`, substring membership, suffix
check).  File-system state is made explicit: a decoded `.fastresume` file is
a bencode dictionary (`BDict`), the content of a directory is a list of
named `FileContent`s, and every disk write performed by a method is recorded
in an explicit effect trace.  Exceptions become `Except`/error components.
-/

/-! ### Character-list string helpers (Python semantics) -/

/-- Boolean "is prefix of" on character lists. -/
def isPre : List Char → List Char → Bool
  | [], _ => true
  | _ :: _, [] => false
  | a :: as, b :: bs => a = b && isPre as bs

/-- Boolean "occurs as a contiguous sublist" on character lists.
Mirrors Python `sub in s` (the empty string occurs in every string). -/
def hasSubL (sub : List Char) : List Char → Bool
  | [] => sub.isEmpty
  | c :: rest => isPre sub (c :: rest) || hasSubL sub rest

/-- Python `sub in s` for strings. -/
def strHas (sub s : String) : Bool := hasSubL sub.data s.data

/-- Python `s.endswith(t)` for strings. -/
def strEnds (s t : String) : Bool := isPre t.data.reverse s.data.reverse

/-- Fuel-driven core of Python `str.replace` for a non-empty pattern:
scan left to right, replacing every non-overlapping occurrence of `old`
by `new`.  Each step consumes at least one character, so fuel equal to
the length of the scanned list suffices. -/
def pyReplaceAux (old new : List Char) : Nat → List Char → List Char
  | 0, s => s
  | _ + 1, [] => []
  | fuel + 1, c :: rest =>
    if isPre old (c :: rest) && !old.isEmpty then
      new ++ pyReplaceAux old new fuel ((c :: rest).drop old.length)
    else
      c :: pyReplaceAux old new fuel rest

/-- Python `s.replace(old, new)` (no count argument: replaces every
non-overlapping occurrence, left to right; with an empty `old`, CPython
inserts `new` before every character and at the end). -/
def pyReplace (s old new : String) : String :=
  if old.data.isEmpty then
    ⟨new.data ++ (s.data.map (fun c => c :: new.data)).flatten⟩
  else
    ⟨pyReplaceAux old.data new.data s.data.length s.data⟩

/-- Python `s.replace(old, new, 1)`: replace only the first occurrence.
This renders the spec's words for the substitution policy of
`replace_paths`; it is not what the source executes. -/
def pyReplaceFirst (s old new : String) : String :=
  if old.data.isEmpty then ⟨new.data ++ s.data⟩
  else ⟨pyReplaceFirstAux old.data new.data s.data⟩
where
  pyReplaceFirstAux (old new : List Char) : List Char → List Char
    | [] => []
    | c :: rest =>
      if isPre old (c :: rest) then new ++ (c :: rest).drop old.length
      else c :: pyReplaceFirstAux old new rest

/-! ### Bencode values and dictionaries -/

/-- A decoded bencode value: byte-string, integer, list or dictionary. -/
inductive BValue where
  | str : String → BValue
  | int : Int → BValue
  | list : List BValue → BValue
  | dict : List (String × BValue) → BValue
deriving Repr

/-- A decoded bencode dictionary, as an ordered association list
(Python `dict` preserves insertion order). -/
abbrev BDict := List (String × BValue)

/-- First-match lookup, Python `d[k]` / `k in d`. -/
def bdLookup : BDict → String → Option BValue
  | [], _ => none
  | (k', v) :: rest, k => if k' = k then some v else bdLookup rest k

/-- Python `d[k] = v`: overwrite the first binding of `k` in place,
append a new binding if `k` is absent. -/
def bdSet : BDict → String → BValue → BDict
  | [], k, v => [(k, v)]
  | (k', v') :: rest, k, v =>
    if k' = k then (k, v) :: rest else (k', v') :: bdSet rest k v

/-! ### FastResume: construction -/

/-- The possible contents of a path in the directory, as seen by
`FastResume.__init__`: no regular file there, a file `bencode.bread`
rejects, or a file that decodes to a dictionary. -/
inductive FileContent where
  | missing : FileContent
  | malformed : FileContent
  | decoded : BDict → FileContent

/-- The Python exceptions the embedded code raises. -/
inductive FRError where
  | fileNotFound : String → FRError
  | bencodeDecodeError : FRError
  | valueError : String → FRError
  | keyError : String → FRError
  | typeError : FRError
deriving Repr

/-- An in-memory `FastResume` object: its (real) file path and the decoded
dictionary `self._data`.  (`os.path.realpath` is modelled as the identity:
path canonicalisation is irrelevant to every claim.) -/
structure FastResume where
  file_path : String
  data : BDict
deriving Repr

/-- `FastResume.__init__`: fail with `FileNotFoundError` if no regular file
is at the path, with `BencodeDecodeError` if `bencode.bread` fails, with
`ValueError` if either required key (`save_path`, `qBt-savePath`) is absent
from the decoded dictionary; otherwise the record is fully constructed. -/
def FastResume.mkFromFile (file_path : String) (content : FileContent) :
    Except FRError FastResume :=
  match content with
  | .missing => .error (.fileNotFound file_path)
  | .malformed => .error .bencodeDecodeError
  | .decoded d =>
    if (bdLookup d "save_path").isSome ∧ (bdLookup d "qBt-savePath").isSome then
      .ok ⟨file_path, d⟩
    else
      .error (.valueError "Missing required keys for a qBittorrent .fastresume file")

/-- `FastResume.backup_filename`: `'%s.%s.%s' % (file_path, timestamp, 'bkup')`.
The wall-clock timestamp is passed in explicitly. -/
def FastResume.backup_filename (fr : FastResume) (ts : String) : String :=
  fr.file_path ++ "." ++ ts ++ "." ++ "bkup"

/-! ### Path translation and mutators -/

/-- Modelled from the spec: the Path Translator `convert_slashes(path, target_os)`
lives in `qbt_migrate/methods.py`, which is not part of the provided source.
Per §4.3 it is a pure function converting path-separator conventions to the
target OS (backslash-delimited for Windows, forward-slash-delimited for Linux
and Mac), idempotent, and it does not alter path-segment content. -/
def convert_slashes (path : String) (target_os : String) : String :=
  if target_os = "Windows" then
    ⟨path.data.map (fun c => if c = '/' then '\\' else c)⟩
  else
    ⟨path.data.map (fun c => if c = '\\' then '/' else c)⟩

/-- `convert_slashes(path, target_os) if target_os is not None else path`,
the guard both setters apply around the translator. -/
def applyOS (path : String) (target_os : Option String) : String :=
  match target_os with
  | some os => convert_slashes path os
  | none => path

/-- One observable disk write: `bencode.bwrite(content, path)`. -/
inductive Effect where
  | writeFile : String → BDict → Effect
deriving Repr

/-- `FastResume.save(file_name=None)`: write `self._data` to the given file
name, defaulting to `self.file_path`.  Returns the write as an effect. -/
def FastResume.save (fr : FastResume) (file_name : Option String) : Effect :=
  .writeFile (file_name.getD fr.file_path) fr.data

/-- `FastResume.set_save_path(path, key, target_os, save_file, create_backup)`:
reject keys other than `save_path`/`qBt-savePath` with `KeyError`; otherwise
back up the current state first if requested, translate the new value if a
target OS is given, store it under `key`, and persist if requested.  Returns
the ordered disk writes that occurred together with the updated object or
the escaped exception (when an exception escapes, the writes performed
before it are still reported). -/
def FastResume.set_save_path (fr : FastResume) (path : String) (key : String)
    (target_os : Option String) (save_file : Bool) (create_backup : Bool)
    (ts : String) : List Effect × Except FRError FastResume :=
  if key = "save_path" ∨ key = "qBt-savePath" then
    let backupEffs := if create_backup then [fr.save (some (fr.backup_filename ts))] else []
    let newPath := applyOS path target_os
    let fr' : FastResume := ⟨fr.file_path, bdSet fr.data key (.str newPath)⟩
    let saveEffs := if save_file then [fr'.save none] else []
    (backupEffs ++ saveEffs, .ok fr')
  else
    ([], .error (.keyError key))

/-- `[convert_slashes(path, target_os) for path in self.mapped_files]`:
`none` models the exception Python raises when an entry is not a string. -/
def convertMapped (os : String) : List BValue → Option (List BValue)
  | [] => some []
  | .str s :: rest => (convertMapped os rest).map (fun r => .str (convert_slashes s os) :: r)
  | _ :: _ => none

/-- The `mapped_files` rewrite step of `set_save_paths`: only when the
`mapped_files` key is present (`self.mapped_files is not None`) and a target
OS is given is the list rewritten entry-wise through `convert_slashes`;
`none` models the exception raised when the stored value is not a list of
strings. -/
def mappedStep (d : BDict) (target_os : Option String) : Option BDict :=
  match target_os, bdLookup d "mapped_files" with
  | some os, some (.list l) =>
    (convertMapped os l).map (fun l' => bdSet d "mapped_files" (.list l'))
  | some _, some _ => none
  | _, _ => some d

/-- `FastResume.set_save_paths(path, target_os, save_file, create_backup)`:
back up once first if requested, set both reserved keys to the (translated)
new path via `set_save_path` with `save_file=False, create_backup=False`,
rewrite `mapped_files` when applicable, then persist once if requested. -/
def FastResume.set_save_paths (fr : FastResume) (path : String)
    (target_os : Option String) (save_file : Bool) (create_backup : Bool)
    (ts : String) : List Effect × Except FRError FastResume :=
  let backupEffs := if create_backup then [fr.save (some (fr.backup_filename ts))] else []
  match fr.set_save_path path "save_path" target_os false false ts with
  | (effs1, .error e) => (backupEffs ++ effs1, .error e)
  | (effs1, .ok fr1) =>
    match fr1.set_save_path path "qBt-savePath" target_os false false ts with
    | (effs2, .error e) => (backupEffs ++ effs1 ++ effs2, .error e)
    | (effs2, .ok fr2) =>
      match mappedStep fr2.data target_os with
      | none => (backupEffs ++ effs1 ++ effs2, .error .typeError)
      | some d3 =>
        let fr3 : FastResume := ⟨fr2.file_path, d3⟩
        let saveEffs := if save_file then [fr3.save none] else []
        (backupEffs ++ effs1 ++ effs2 ++ saveEffs, .ok fr3)

/-- `FastResume.replace_paths(existing_path, new_path, target_os, save_file,
create_backup)`: compute `self.save_path.replace(existing_path, new_path)`
(Python `str.replace`) and delegate to `set_save_paths`.  The `typeError`
branch models the exception raised when `save_path` does not hold a string. -/
def FastResume.replace_paths (fr : FastResume) (existing_path new_path : String)
    (target_os : Option String) (save_file : Bool) (create_backup : Bool)
    (ts : String) : List Effect × Except FRError FastResume :=
  match bdLookup fr.data "save_path" with
  | some (.str s) =>
    fr.set_save_paths (pyReplace s existing_path new_path) target_os save_file create_backup ts
  | _ => ([], .error .typeError)

/-! ### Batch coordinator: discovery -/

/-- The short-circuiting condition of the discovery loop:
`existing_path in fast_resume.save_path or existing_path in fast_resume.qbt_save_path`.
`none` models the exception Python raises when the tested field is not a
string (this check sits outside the `try` block, so it is never caught). -/
def frMatches (fr : FastResume) (existing_path : String) : Option Bool :=
  match bdLookup fr.data "save_path" with
  | some (.str s) =>
    if strHas existing_path s then some true
    else
      match bdLookup fr.data "qBt-savePath" with
      | some (.str q) => some (strHas existing_path q)
      | _ => none
  | _ => none

/-- The outcome of one full pass of the generator
`QBTBatchMove.discover_relevant_fast_resume`, as seen by a consumer that
drains it: the records yielded (in order), the file names logged and skipped
(`raise_on_error=False` branch, in order), and the exception that escaped,
if any. -/
structure DiscoverResult where
  yielded : List FastResume
  skipped : List String
  err : Option FRError
deriving Repr

/-- `QBTBatchMove.discover_relevant_fast_resume(bt_backup_path, existing_path,
raise_on_error)` run over an explicit directory listing: consider only names
ending in `.fastresume`; construct a `FastResume` for each; on a construction
failure either escape with the exception (`raise_on_error`) or log the name
and skip; yield exactly the constructed records whose `save_path` or
`qBt-savePath` contains `existing_path`. -/
def discover_relevant_fast_resume (bt_backup_path existing_path : String)
    (raise_on_error : Bool) : List (String × FileContent) → DiscoverResult
  | [] => ⟨[], [], none⟩
  | (name, content) :: rest =>
    if strEnds name ".fastresume" then
      match FastResume.mkFromFile (bt_backup_path ++ "/" ++ name) content with
      | .error e =>
        if raise_on_error then ⟨[], [], some e⟩
        else
          let r := discover_relevant_fast_resume bt_backup_path existing_path raise_on_error rest
          ⟨r.yielded, name :: r.skipped, r.err⟩
      | .ok fr =>
        match frMatches fr existing_path with
        | none => ⟨[], [], some .typeError⟩
        | some b =>
          let r := discover_relevant_fast_resume bt_backup_path existing_path raise_on_error rest
          if b then ⟨fr :: r.yielded, r.skipped, r.err⟩ else r
    else discover_relevant_fast_resume bt_backup_path existing_path raise_on_error rest

/-- The records a full, failure-free discovery pass yields from a listing:
entries with the `.fastresume` suffix that construct successfully and whose
save paths contain the substring. -/
def yieldedOf (bt_backup_path existing_path : String)
    (dir : List (String × FileContent)) : List FastResume :=
  dir.filterMap (fun e =>
    if strEnds e.1 ".fastresume" then
      match FastResume.mkFromFile (bt_backup_path ++ "/" ++ e.1) e.2 with
      | .ok fr => if frMatches fr existing_path = some true then some fr else none
      | .error _ => none
    else none)

/-- The file names a best-effort discovery pass logs and skips from a
listing: entries with the `.fastresume` suffix whose construction fails. -/
def skippedOf (bt_backup_path : String)
    (dir : List (String × FileContent)) : List String :=
  dir.filterMap (fun e =>
    if strEnds e.1 ".fastresume" then
      match FastResume.mkFromFile (bt_backup_path ++ "/" ++ e.1) e.2 with
      | .ok _ => none
      | .error _ => some e.1
    else none)

/-- A directory entry that constructs successfully and whose match check
does not itself raise. -/
def goodEntry (bt_backup_path existing_path : String) (e : String × FileContent) : Prop :=
  ∃ fr, FastResume.mkFromFile (bt_backup_path ++ "/" ++ e.1) e.2 = .ok fr ∧
    frMatches fr existing_path ≠ none

/-- A directory entry whose construction fails (with one of the three
exception types the discovery loop catches). -/
def badEntry (bt_backup_path : String) (e : String × FileContent) : Prop :=
  ∃ err, FastResume.mkFromFile (bt_backup_path ++ "/" ++ e.1) e.2 = .error err

/-! ### Batch coordinator: run -/

/-- The observable global effects of `QBTBatchMove.run`: the creation of the
directory-level backup archive, and the dispatch of one fire-and-forget
`replace_paths(existing, new, target_os, True, False)` task per discovered
record. -/
inductive RunEffect where
  | archiveWrite : String → List String → RunEffect
  | spawnReplace : FastResume → String → String → Option String → RunEffect

/-- The exceptions `QBTBatchMove.run` can raise. -/
inductive RunError where
  | notADirectory : String → RunError
  | archivalError : RunError
  | discoverError : FRError → RunError

/-- `os.path.dirname`: everything before the final separator. -/
def dirname (p : String) : String :=
  let parts := p.splitOn "/"
  if parts.length ≤ 1 then "" else String.intercalate "/" parts.dropLast

/-- `QBTBatchMove.run(existing_path, new_path, target_os, create_backup,
skip_bad_files)`: raise `NotADirectoryError` unless `bt_backup_path` is an
existing directory; if `create_backup`, create the zip archive of the whole
directory (raising, with no effect recorded, when archive creation fails,
modelled by `archiveOk = false`); then discover matching records with
`raise_on_error = not skip_bad_files` and spawn one `replace_paths` thread
per yielded record.  Returns the effects that occurred and the escaped
exception, if any. -/
def QBTBatchMove.run (bt_backup_path : String) (pathIsDir : Bool)
    (archiveOk : Bool) (dir : List (String × FileContent))
    (existing_path new_path : String) (target_os : Option String)
    (create_backup skip_bad_files : Bool) (ts : String) :
    List RunEffect × Option RunError :=
  if ¬pathIsDir then ([], some (.notADirectory bt_backup_path))
  else if create_backup ∧ ¬archiveOk then ([], some .archivalError)
  else
    let archEffs : List RunEffect :=
      if create_backup then
        [.archiveWrite (dirname bt_backup_path ++ "/" ++ ("fastresume_backup" ++ ts ++ ".zip"))
          (dir.map (·.1))]
      else []
    let d := discover_relevant_fast_resume bt_backup_path existing_path (!skip_bad_files) dir
    (archEffs ++ d.yielded.map (fun fr => .spawnReplace fr existing_path new_path target_os),
     d.err.map .discoverError)

/-! ### Concrete sample data (used to instantiate proved theorems) -/

/-- A minimal valid decoded record whose save path contains `/data` twice. -/
def dGood : BDict :=
  [("save_path", BValue.str "/data/data/x"), ("qBt-savePath", BValue.str "/data/data/x")]

/-- The record decoded from `/bt/a.fastresume` holding `dGood`. -/
def frGood : FastResume := ⟨"/bt/a.fastresume", dGood⟩

/-- A valid decoded record with an extra unknown field and a
`mapped_files` list. -/
def dRich : BDict :=
  [("save_path", BValue.str "/data/t"), ("qBt-savePath", BValue.str "/data/t"),
   ("extra", BValue.int 7),
   ("mapped_files", BValue.list [BValue.str "a\\b", BValue.str "c"])]

/-- The record decoded from `/bt/r.fastresume` holding `dRich`. -/
def frRich : FastResume := ⟨"/bt/r.fastresume", dRich⟩

/-- `dRich` after `set_save_paths("/new/p", target_os="Windows")`: both save
paths translated to backslashes, `mapped_files` rewritten (unchanged here as
its entries already use backslashes), `extra` untouched. -/
def dRichWin : BDict :=
  [("save_path", BValue.str "\\new\\p"), ("qBt-savePath", BValue.str "\\new\\p"),
   ("extra", BValue.int 7), ("mapped_files", BValue.list [BValue.str "a\\b", BValue.str "c"])]

/-- The in-memory record resulting from that call. -/
def frRichWin : FastResume := ⟨"/bt/r.fastresume", dRichWin⟩

/-- `dRich` after `set_save_paths("/new/p")` with no target OS: save paths
replaced verbatim, everything else untouched. -/
def dRichNone : BDict :=
  [("save_path", BValue.str "/new/p"), ("qBt-savePath", BValue.str "/new/p"),
   ("extra", BValue.int 7), ("mapped_files", BValue.list [BValue.str "a\\b", BValue.str "c"])]

/-- The in-memory record resulting from that call. -/
def frRichNone : FastResume := ⟨"/bt/r.fastresume", dRichNone⟩

/-- A decoded mapping lacking the client save-path key. -/
def dMiss : BDict := [("save_path", BValue.str "/data/z")]

/-- A valid decoded record whose save paths do not contain `/data`. -/
def dOther : BDict :=
  [("save_path", BValue.str "/elsewhere"), ("qBt-savePath", BValue.str "/e2")]

/-- A directory listing with one valid matching record, one malformed
resume file, one non-resume file and one valid non-matching record. -/
def dirSample : List (String × FileContent) :=
  [("a.fastresume", .decoded dGood), ("bad.fastresume", .malformed),
   ("notes.txt", .malformed), ("other.fastresume", .decoded dOther)]

/-! ### Dictionary and mapped-files lemmas -/

lemma bdLookup_bdSet_self (d : BDict) (k : String) (v : BValue) :
    bdLookup (bdSet d k v) k = some v := by
  induction d with
  | nil => simp [bdSet, bdLookup]
  | cons e rest ih =>
    obtain ⟨k', v'⟩ := e
    by_cases h : k' = k <;> simp [bdSet, bdLookup, h, ih]

lemma bdLookup_bdSet_ne (d : BDict) (k k' : String) (v : BValue) (h : k' ≠ k) :
    bdLookup (bdSet d k' v) k = bdLookup d k := by
  induction d with
  | nil => simp [bdSet, bdLookup, h]
  | cons e rest ih =>
    obtain ⟨k'', v''⟩ := e
    by_cases h' : k'' = k' <;> simp [bdSet, bdLookup, h', h, ih]

lemma mappedStep_none_os (d : BDict) : mappedStep d none = some d := by
  cases h : bdLookup d "mapped_files" <;> simp [mappedStep, h]

lemma mappedStep_absent (d : BDict) (target_os : Option String)
    (h : bdLookup d "mapped_files" = none) : mappedStep d target_os = some d := by
  cases target_os <;> simp [mappedStep, h]

lemma mappedStep_lookup_ne (d d' : BDict) (target_os : Option String) (k : String)
    (hk : k ≠ "mapped_files") (h : mappedStep d target_os = some d') :
    bdLookup d' k = bdLookup d k := by
  cases target_os with
  | none =>
    rw [mappedStep_none_os] at h
    cases h
    rfl
  | some os =>
    cases hl : bdLookup d "mapped_files" with
    | none =>
      rw [mappedStep_absent _ _ hl] at h
      cases h
      rfl
    | some v =>
      cases v <;> simp [mappedStep, hl] at h
      obtain ⟨l', _, rfl⟩ := h
      exact bdLookup_bdSet_ne _ _ _ _ (fun hcon => hk (hcon ▸ rfl))

/-- The two reserved keys are accepted by `set_save_path`, which then reduces
to a plain dictionary update plus the requested writes. -/
lemma set_save_path_valid (fr : FastResume) (path : String) (key : String)
    (target_os : Option String) (save_file create_backup : Bool) (ts : String)
    (hk : key = "save_path" ∨ key = "qBt-savePath") :
    fr.set_save_path path key target_os save_file create_backup ts =
      ((if create_backup then [Effect.writeFile (fr.backup_filename ts) fr.data] else []) ++
       (if save_file then
          [Effect.writeFile fr.file_path (bdSet fr.data key (.str (applyOS path target_os)))]
        else []),
       .ok ⟨fr.file_path, bdSet fr.data key (.str (applyOS path target_os))⟩) := by
  simp [FastResume.set_save_path, hk, FastResume.save]

/-- `set_save_path` specialised to the key `save_path` as called by
`set_save_paths` (no backup, no persist). -/
lemma set_save_path_sp (fr : FastResume) (path : String) (target_os : Option String)
    (ts : String) :
    fr.set_save_path path "save_path" target_os false false ts =
      ([], .ok ⟨fr.file_path, bdSet fr.data "save_path" (.str (applyOS path target_os))⟩) := by
  simp [set_save_path_valid _ _ _ _ _ _ _ (Or.inl rfl)]

/-- `set_save_path` specialised to the key `qBt-savePath` as called by
`set_save_paths` (no backup, no persist). -/
lemma set_save_path_qbt (fr : FastResume) (path : String) (target_os : Option String)
    (ts : String) :
    fr.set_save_path path "qBt-savePath" target_os false false ts =
      ([], .ok ⟨fr.file_path, bdSet fr.data "qBt-savePath" (.str (applyOS path target_os))⟩) := by
  simp [set_save_path_valid _ _ _ _ _ _ _ (Or.inr rfl)]

/-- Full unfolding of `set_save_paths`: both reserved keys are updated to the
translated path, then `mapped_files` is rewritten when applicable, and the
writes are one optional backup of the pre-call state followed (on success) by
one optional persist of the final state. -/
lemma set_save_paths_eq (fr : FastResume) (path : String) (target_os : Option String)
    (save_file create_backup : Bool) (ts : String) :
    fr.set_save_paths path target_os save_file create_backup ts =
      match mappedStep
          (bdSet (bdSet fr.data "save_path" (.str (applyOS path target_os)))
            "qBt-savePath" (.str (applyOS path target_os))) target_os with
      | none =>
        ((if create_backup then [Effect.writeFile (fr.backup_filename ts) fr.data] else []),
         .error .typeError)
      | some d3 =>
        ((if create_backup then [Effect.writeFile (fr.backup_filename ts) fr.data] else []) ++
         (if save_file then [Effect.writeFile fr.file_path d3] else []),
         .ok ⟨fr.file_path, d3⟩) := by
  simp only [FastResume.set_save_paths, set_save_path_sp, set_save_path_qbt]
  cases h : mappedStep
      (bdSet (bdSet fr.data "save_path" (.str (applyOS path target_os)))
        "qBt-savePath" (.str (applyOS path target_os))) target_os <;>
    simp [FastResume.save]

/-! ### Discovery lemmas -/

/-- Draining the generator over a concatenated listing, when the first part
completes without an escaping exception, concatenates the yields and the
skip logs and leaves the second part's exception. -/
lemma discover_append (bt ex : String) (roe : Bool) (l1 l2 : List (String × FileContent))
    (h : (discover_relevant_fast_resume bt ex roe l1).err = none) :
    discover_relevant_fast_resume bt ex roe (l1 ++ l2) =
      ⟨(discover_relevant_fast_resume bt ex roe l1).yielded ++
         (discover_relevant_fast_resume bt ex roe l2).yielded,
       (discover_relevant_fast_resume bt ex roe l1).skipped ++
         (discover_relevant_fast_resume bt ex roe l2).skipped,
       (discover_relevant_fast_resume bt ex roe l2).err⟩ := by
  induction l1 with
  | nil => simp [discover_relevant_fast_resume]
  | cons e rest ih =>
    obtain ⟨name, content⟩ := e
    by_cases hs : strEnds name ".fastresume" = true
    · cases hmk : FastResume.mkFromFile (bt ++ "/" ++ name) content with
      | error err =>
        cases roe with
        | true => simp [discover_relevant_fast_resume, hs, hmk] at h
        | false =>
          simp only [discover_relevant_fast_resume, hs, hmk] at h
          have hr := ih h
          simp [discover_relevant_fast_resume, hs, hmk, hr]
      | ok fr =>
        cases hm : frMatches fr ex with
        | none => simp [discover_relevant_fast_resume, hs, hmk, hm] at h
        | some b =>
          cases b with
          | true =>
            simp only [discover_relevant_fast_resume, hs, hmk, hm] at h
            have hr := ih h
            simp [discover_relevant_fast_resume, hs, hmk, hm, hr]
          | false =>
            simp only [discover_relevant_fast_resume, hs, hmk, hm] at h
            have hr := ih h
            simp [discover_relevant_fast_resume, hs, hmk, hm, hr]
    · simp only [discover_relevant_fast_resume, hs] at h
      have hr := ih h
      simp [discover_relevant_fast_resume, hs, hr]

/-- Best-effort mode (`raise_on_error = False`): when every suffix-matching
entry either constructs (with a string-typed match check) or fails to
construct, the pass yields exactly the valid matching records, logs and
skips exactly the failing entries, and no exception escapes. -/
lemma discover_best_effort (bt ex : String) (dir : List (String × FileContent))
    (H : ∀ e ∈ dir, strEnds e.1 ".fastresume" = true → goodEntry bt ex e ∨ badEntry bt e) :
    discover_relevant_fast_resume bt ex false dir =
      ⟨yieldedOf bt ex dir, skippedOf bt dir, none⟩ := by
  induction dir with
  | nil => rfl
  | cons e rest ih =>
    obtain ⟨name, content⟩ := e
    have hr := ih (fun e he hsx => H e (List.mem_cons_of_mem _ he) hsx)
    by_cases hs : strEnds name ".fastresume" = true
    · rcases H ⟨name, content⟩ (List.mem_cons_self _ _) hs with ⟨fr, hok, hm⟩ | ⟨err, herr⟩
      · cases hm' : frMatches fr ex with
        | none => exact absurd hm' hm
        | some b =>
          cases b <;>
            simp [discover_relevant_fast_resume, hs, hok, hm', hr, yieldedOf, skippedOf,
              List.filterMap_cons]
      · simp [discover_relevant_fast_resume, hs, herr, hr, yieldedOf, skippedOf,
          List.filterMap_cons]
    · simp [discover_relevant_fast_resume, hs, hr, yieldedOf, skippedOf, List.filterMap_cons]

/-- Fail-fast mode (`raise_on_error = True`): the first failing suffix entry
in listing order escapes as the exception; the records yielded are exactly
the matching records of the entries before it, nothing is logged as skipped,
and nothing after the failure is yielded. -/
lemma discover_fail_fast (bt ex : String) (pre : List (String × FileContent))
    (e0 : String × FileContent) (post : List (String × FileContent)) (err0 : FRError)
    (Hpre : ∀ e ∈ pre, strEnds e.1 ".fastresume" = true → goodEntry bt ex e)
    (hs0 : strEnds e0.1 ".fastresume" = true)
    (herr : FastResume.mkFromFile (bt ++ "/" ++ e0.1) e0.2 = .error err0) :
    discover_relevant_fast_resume bt ex true (pre ++ e0 :: post) =
      ⟨yieldedOf bt ex pre, [], some err0⟩ := by
  induction pre with
  | nil =>
    obtain ⟨name0, c0⟩ := e0
    simp only at hs0 herr
    simp [discover_relevant_fast_resume, hs0, herr, yieldedOf]
  | cons e rest ih =>
    obtain ⟨name, content⟩ := e
    have hr := ih (fun e he hsx => Hpre e (List.mem_cons_of_mem _ he) hsx)
    by_cases hs : strEnds name ".fastresume" = true
    · obtain ⟨fr, hok, hm⟩ := Hpre ⟨name, content⟩ (List.mem_cons_self _ _) hs
      cases hm' : frMatches fr ex with
      | none => exact absurd hm' hm
      | some b =>
        cases b <;>
          simp [discover_relevant_fast_resume, hs, hok, hm', hr, yieldedOf,
            List.filterMap_cons]
    · simp [discover_relevant_fast_resume, hs, hr, yieldedOf, List.filterMap_cons]

/-- Entries without the `.fastresume` suffix play no role at all: filtering
them away before the pass leaves the outcome unchanged. -/
lemma discover_filter_suffix (bt ex : String) (roe : Bool)
    (dir : List (String × FileContent)) :
    discover_relevant_fast_resume bt ex roe
        (dir.filter (fun e => strEnds e.1 ".fastresume")) =
      discover_relevant_fast_resume bt ex roe dir := by
  induction dir with
  | nil => rfl
  | cons e rest ih =>
    obtain ⟨name, content⟩ := e
    by_cases hs : strEnds name ".fastresume" = true
    · cases hmk : FastResume.mkFromFile (bt ++ "/" ++ name) content with
      | error err =>
        cases roe <;> simp [List.filter_cons, hs, discover_relevant_fast_resume, hmk, ih]
      | ok fr =>
        cases hm : frMatches fr ex with
        | none => simp [List.filter_cons, hs, discover_relevant_fast_resume, hmk, hm]
        | some b =>
          cases b <;> simp [List.filter_cons, hs, discover_relevant_fast_resume, hmk, hm, ih]
    · simp [List.filter_cons, hs, discover_relevant_fast_resume, ih]

/-- Soundness of yields: every record the pass yields comes from a listed
entry with the `.fastresume` suffix, was constructed from that entry, and
contains the substring in one of its two save paths. -/
lemma discover_yield_sound (bt ex : String) (roe : Bool)
    (dir : List (String × FileContent)) :
    ∀ fr ∈ (discover_relevant_fast_resume bt ex roe dir).yielded,
      ∃ e ∈ dir, strEnds e.1 ".fastresume" = true ∧
        FastResume.mkFromFile (bt ++ "/" ++ e.1) e.2 = .ok fr ∧
        frMatches fr ex = some true := by
  induction dir with
  | nil => intro fr h; simp [discover_relevant_fast_resume] at h
  | cons e rest ih =>
    intro fr hfr
    obtain ⟨name, content⟩ := e
    by_cases hs : strEnds name ".fastresume" = true
    · cases hmk : FastResume.mkFromFile (bt ++ "/" ++ name) content with
      | error err =>
        cases roe with
        | true => simp [discover_relevant_fast_resume, hs, hmk] at hfr
        | false =>
          simp only [discover_relevant_fast_resume, hs, hmk] at hfr
          obtain ⟨e', he', h'⟩ := ih fr hfr
          exact ⟨e', List.mem_cons_of_mem _ he', h'⟩
      | ok fr' =>
        cases hm : frMatches fr' ex with
        | none => simp [discover_relevant_fast_resume, hs, hmk, hm] at hfr
        | some b =>
          cases b with
          | true =>
            simp only [discover_relevant_fast_resume, hs, hmk, hm] at hfr
            rcases List.mem_cons.mp hfr with rfl | htail
            · exact ⟨⟨name, content⟩, List.mem_cons_self _ _, hs, hmk, hm⟩
            · obtain ⟨e', he', h'⟩ := ih fr htail
              exact ⟨e', List.mem_cons_of_mem _ he', h'⟩
          | false =>
            simp only [discover_relevant_fast_resume, hs, hmk, hm] at hfr
            obtain ⟨e', he', h'⟩ := ih fr hfr
            exact ⟨e', List.mem_cons_of_mem _ he', h'⟩
    · simp only [discover_relevant_fast_resume, hs] at hfr
      obtain ⟨e', he', h'⟩ := ih fr hfr
      exact ⟨e', List.mem_cons_of_mem _ he', h'⟩

/-- Completeness of yields: a suffix entry the pass actually reaches (no
exception escapes from the part of the listing before it) that constructs a
record containing the substring has that record among the yields. -/
lemma discover_yield_reach (bt ex : String) (roe : Bool)
    (pre : List (String × FileContent)) (e : String × FileContent)
    (post : List (String × FileContent)) (fr : FastResume)
    (hpre : (discover_relevant_fast_resume bt ex roe pre).err = none)
    (hs : strEnds e.1 ".fastresume" = true)
    (hok : FastResume.mkFromFile (bt ++ "/" ++ e.1) e.2 = .ok fr)
    (hm : frMatches fr ex = some true) :
    fr ∈ (discover_relevant_fast_resume bt ex roe (pre ++ e :: post)).yielded := by
  rw [discover_append _ _ _ _ _ hpre]
  obtain ⟨name, content⟩ := e
  simp only at hs hok
  simp [discover_relevant_fast_resume, hs, hok, hm]

/-! ### Success-shape lemmas for the setters -/

/-- Structure of a successful `set_save_paths`: the file path is unchanged,
the final dictionary is the two key updates followed by the `mapped_files`
step, and the writes are exactly one optional backup of the pre-call state
followed by one optional persist of the final state. -/
lemma set_save_paths_ok_struct (fr : FastResume) (path : String)
    (target_os : Option String) (save_file create_backup : Bool) (ts : String)
    (effs : List Effect) (fr' : FastResume)
    (h : fr.set_save_paths path target_os save_file create_backup ts = (effs, .ok fr')) :
    fr'.file_path = fr.file_path ∧
    mappedStep (bdSet (bdSet fr.data "save_path" (.str (applyOS path target_os)))
        "qBt-savePath" (.str (applyOS path target_os))) target_os = some fr'.data ∧
    effs = (if create_backup then [Effect.writeFile (fr.backup_filename ts) fr.data] else []) ++
           (if save_file then [Effect.writeFile fr.file_path fr'.data] else []) := by
  rw [set_save_paths_eq] at h
  cases hms : mappedStep (bdSet (bdSet fr.data "save_path" (.str (applyOS path target_os)))
      "qBt-savePath" (.str (applyOS path target_os))) target_os with
  | none => rw [hms] at h; simp at h
  | some d3 =>
    rw [hms] at h
    simp only [Prod.mk.injEq] at h
    obtain ⟨heffs, hok⟩ := h
    have hfr : fr' = ⟨fr.file_path, d3⟩ := by
      cases hok; rfl
    subst hfr
    exact ⟨rfl, rfl, heffs.symm⟩

/-- After a successful `set_save_paths`, both reserved keys hold the
translated new path. -/
lemma set_save_paths_save_keys (fr : FastResume) (path : String)
    (target_os : Option String) (save_file create_backup : Bool) (ts : String)
    (effs : List Effect) (fr' : FastResume)
    (h : fr.set_save_paths path target_os save_file create_backup ts = (effs, .ok fr')) :
    bdLookup fr'.data "save_path" = some (.str (applyOS path target_os)) ∧
    bdLookup fr'.data "qBt-savePath" = some (.str (applyOS path target_os)) := by
  obtain ⟨-, hms, -⟩ := set_save_paths_ok_struct _ _ _ _ _ _ _ _ h
  constructor
  · rw [mappedStep_lookup_ne _ _ _ _ (by decide) hms,
      bdLookup_bdSet_ne _ _ _ _ (by decide)]
    exact bdLookup_bdSet_self _ _ _
  · rw [mappedStep_lookup_ne _ _ _ _ (by decide) hms]
    exact bdLookup_bdSet_self _ _ _

/-- A successful `replace_paths` read a string `save_path` and delegated to
`set_save_paths` on its full `str.replace` substitution. -/
lemma replace_paths_ok (fr : FastResume) (existing_path new_path : String)
    (target_os : Option String) (save_file create_backup : Bool) (ts : String)
    (effs : List Effect) (fr' : FastResume)
    (h : fr.replace_paths existing_path new_path target_os save_file create_backup ts =
      (effs, .ok fr')) :
    ∃ s, bdLookup fr.data "save_path" = some (.str s) ∧
      fr.set_save_paths (pyReplace s existing_path new_path) target_os save_file
        create_backup ts = (effs, .ok fr') := by
  unfold FastResume.replace_paths at h
  cases hl : bdLookup fr.data "save_path" with
  | none => rw [hl] at h; simp at h
  | some v =>
    cases v with
    | str s => rw [hl] at h; exact ⟨s, rfl, h⟩
    | int n => rw [hl] at h; simp at h
    | list l => rw [hl] at h; simp at h
    | dict d => rw [hl] at h; simp at h

/-! ### Claim theorems -/

/-- C1 (counterexample): the claim says `replace_paths` substitutes only the
first occurrence of the existing substring.  On a record whose primary save
path is `/data/data/x`, replacing `/data` by `/new` yields `/new/new/x`
(both occurrences replaced), while first-occurrence-only substitution would
yield `/new/data/x`; the two differ. -/
theorem replace_paths_counterexample_first_occurrence :
    frGood.replace_paths "/data" "/new" none false false "20200101000000" =
      ([], .ok ⟨"/bt/a.fastresume",
        [("save_path", BValue.str "/new/new/x"), ("qBt-savePath", BValue.str "/new/new/x")]⟩) ∧
    pyReplaceFirst "/data/data/x" "/data" "/new" = "/new/data/x" ∧
    ("/new/new/x" : String) ≠ "/new/data/x" :=
  ⟨rfl, rfl, by decide⟩

/-- C1 (amended): `replace_paths` computes the new primary save path by
replacing every (non-overlapping, left-to-right) occurrence of
`existing_path` in the current primary save path with `new_path` — Python's
`str.replace` with no count argument — and delegates to `set_save_paths`
with that computed value. -/
theorem replace_paths_replaces_all_occurrences (fr : FastResume)
    (s existing_path new_path : String) (target_os : Option String)
    (save_file create_backup : Bool) (ts : String)
    (h : bdLookup fr.data "save_path" = some (.str s)) :
    fr.replace_paths existing_path new_path target_os save_file create_backup ts =
      fr.set_save_paths (pyReplace s existing_path new_path) target_os save_file
        create_backup ts := by
  unfold FastResume.replace_paths
  rw [h]

/-- C1 witness: the amended theorem applied to a concrete record. -/
theorem replace_paths_replaces_all_occurrences_witness :
    frRich.replace_paths "/data" "/mnt/new" (some "Windows") true true "t1" =
      frRich.set_save_paths (pyReplace "/data/t" "/data" "/mnt/new") (some "Windows")
        true true "t1" :=
  replace_paths_replaces_all_occurrences frRich "/data/t" "/data" "/mnt/new"
    (some "Windows") true true "t1" rfl

/-- C2: constructing a record from a decoded file succeeds (with the full
dictionary, nothing dropped) exactly when both reserved keys are present;
when either is absent it fails with the invalid-record `ValueError` and no
record is produced. -/
theorem fastresume_requires_both_save_path_keys (p : String) (d : BDict) :
    (((bdLookup d "save_path").isSome ∧ (bdLookup d "qBt-savePath").isSome) →
      FastResume.mkFromFile p (.decoded d) = .ok ⟨p, d⟩) ∧
    (¬((bdLookup d "save_path").isSome ∧ (bdLookup d "qBt-savePath").isSome) →
      FastResume.mkFromFile p (.decoded d) =
        .error (.valueError "Missing required keys for a qBittorrent .fastresume file")) := by
  constructor <;> intro h
  · rw [FastResume.mkFromFile, if_pos h]
  · rw [FastResume.mkFromFile, if_neg h]

/-- C2 witness: a mapping with both keys constructs; one lacking the client
key fails with the invalid-record error. -/
theorem fastresume_requires_both_save_path_keys_witness :
    FastResume.mkFromFile "/bt/a.fastresume" (.decoded dGood) =
      .ok ⟨"/bt/a.fastresume", dGood⟩ ∧
    FastResume.mkFromFile "/bt/m.fastresume" (.decoded dMiss) =
      .error (.valueError "Missing required keys for a qBittorrent .fastresume file") :=
  ⟨(fastresume_requires_both_save_path_keys "/bt/a.fastresume" dGood).1 (by decide),
   (fastresume_requires_both_save_path_keys "/bt/m.fastresume" dMiss).2 (by decide)⟩

/-- C3: over a listing whose suffix entries are each valid or malformed,
best-effort discovery (`raise_on_error = False`) yields exactly the valid
matching records, logs and skips exactly the malformed files, and no
exception escapes; fail-fast discovery (`raise_on_error = True`) escapes
with the first malformed file's exception in listing order, having yielded
only the matching records seen before it and nothing after it. -/
theorem discover_fault_isolation_and_fail_fast (bt ex : String)
    (dir pre post : List (String × FileContent)) (e0 : String × FileContent)
    (err0 : FRError) :
    ((∀ e ∈ dir, strEnds e.1 ".fastresume" = true → goodEntry bt ex e ∨ badEntry bt e) →
      discover_relevant_fast_resume bt ex false dir =
        ⟨yieldedOf bt ex dir, skippedOf bt dir, none⟩) ∧
    ((∀ e ∈ pre, strEnds e.1 ".fastresume" = true → goodEntry bt ex e) →
      strEnds e0.1 ".fastresume" = true →
      FastResume.mkFromFile (bt ++ "/" ++ e0.1) e0.2 = .error err0 →
      discover_relevant_fast_resume bt ex true (pre ++ e0 :: post) =
        ⟨yieldedOf bt ex pre, [], some err0⟩) :=
  ⟨discover_best_effort bt ex dir, discover_fail_fast bt ex pre e0 post err0⟩

/-- C3 witness: both modes applied to a concrete four-entry directory with
one valid matching, one malformed, one non-resume and one non-matching
file. -/
theorem discover_fault_isolation_and_fail_fast_witness :
    discover_relevant_fast_resume "/bt" "/data" false dirSample =
      ⟨yieldedOf "/bt" "/data" dirSample, skippedOf "/bt" dirSample, none⟩ ∧
    discover_relevant_fast_resume "/bt" "/data" true
        ([("a.fastresume", FileContent.decoded dGood)] ++
          ("bad.fastresume", FileContent.malformed) ::
          [("notes.txt", FileContent.malformed),
           ("other.fastresume", FileContent.decoded dOther)]) =
      ⟨yieldedOf "/bt" "/data" [("a.fastresume", FileContent.decoded dGood)], [],
        some .bencodeDecodeError⟩ := by
  constructor
  · refine (discover_fault_isolation_and_fail_fast "/bt" "/data" dirSample [] []
      ("x", .malformed) .bencodeDecodeError).1 ?_
    intro e he hs
    simp only [dirSample, List.mem_cons, List.not_mem_nil, or_false] at he
    rcases he with rfl | rfl | rfl | rfl
    · exact Or.inl ⟨⟨"/bt/a.fastresume", dGood⟩, rfl, by decide⟩
    · exact Or.inr ⟨.bencodeDecodeError, rfl⟩
    · exact absurd hs (by decide)
    · exact Or.inl ⟨⟨"/bt/other.fastresume", dOther⟩, rfl, by decide⟩
  · refine (discover_fault_isolation_and_fail_fast "/bt" "/data" []
      [("a.fastresume", FileContent.decoded dGood)]
      [("notes.txt", FileContent.malformed), ("other.fastresume", FileContent.decoded dOther)]
      ("bad.fastresume", FileContent.malformed) .bencodeDecodeError).2 ?_ rfl rfl
    intro e he hs
    simp only [List.mem_singleton] at he
    subst he
    exact ⟨⟨"/bt/a.fastresume", dGood⟩, rfl, by decide⟩

/-- C4: `run` fails with the directory-not-found error whenever the source
path is not an existing directory, regardless of every other argument, with
no effect recorded; and when the path is a directory, `create_backup` is
requested and archive creation fails, `run` fails with the archival error,
again with no effect recorded — in both failure cases no archive write and
no `replace_paths` dispatch (hence no record mutation) occurs. -/
theorem run_preconditions_prevent_mutation (bt_backup_path : String)
    (pathIsDir archiveOk : Bool) (dir : List (String × FileContent))
    (existing_path new_path : String) (target_os : Option String)
    (create_backup skip_bad_files : Bool) (ts : String) :
    (pathIsDir = false →
      QBTBatchMove.run bt_backup_path pathIsDir archiveOk dir existing_path new_path
          target_os create_backup skip_bad_files ts =
        ([], some (.notADirectory bt_backup_path))) ∧
    (pathIsDir = true → create_backup = true → archiveOk = false →
      QBTBatchMove.run bt_backup_path pathIsDir archiveOk dir existing_path new_path
          target_os create_backup skip_bad_files ts =
        ([], some .archivalError)) := by
  constructor
  · intro h; subst h; simp [QBTBatchMove.run]
  · intro h1 h2 h3; subst h1; subst h2; subst h3; simp [QBTBatchMove.run]

/-- C4 witness: both failure cases on a concrete directory listing. -/
theorem run_preconditions_prevent_mutation_witness :
    QBTBatchMove.run "/bt" false true dirSample "/data" "/new" none true false "t" =
      ([], some (.notADirectory "/bt")) ∧
    QBTBatchMove.run "/bt" true false dirSample "/data" "/new" none true false "t" =
      ([], some .archivalError) :=
  ⟨(run_preconditions_prevent_mutation "/bt" false true dirSample "/data" "/new" none
      true false "t").1 rfl,
   (run_preconditions_prevent_mutation "/bt" true false dirSample "/data" "/new" none
      true false "t").2 rfl rfl rfl⟩

/-- C5: a successful `set_save_paths` with `create_backup = True` and
`save_file = True` performs exactly two writes, in order: one backup write
(to the derived backup path, of the pre-call state, hence before either
save-path field changed) and then one persist write (to the record's file
path, of the fully updated final state, hence after both fields and any
`mapped_files` rewrite) — not one write per field. -/
theorem set_save_paths_one_backup_then_one_persist (fr : FastResume) (path : String)
    (target_os : Option String) (ts : String) (effs : List Effect) (fr' : FastResume)
    (h : fr.set_save_paths path target_os true true ts = (effs, .ok fr')) :
    effs = [Effect.writeFile (fr.backup_filename ts) fr.data,
            Effect.writeFile fr.file_path fr'.data] := by
  obtain ⟨-, -, heffs⟩ := set_save_paths_ok_struct _ _ _ _ _ _ _ _ h
  simpa using heffs

/-- C5 witness: the concrete Windows-targeted call on `frRich`. -/
theorem set_save_paths_one_backup_then_one_persist_witness :
    [Effect.writeFile "/bt/r.fastresume.t.bkup" dRich,
     Effect.writeFile "/bt/r.fastresume" dRichWin] =
      [Effect.writeFile (frRich.backup_filename "t") frRich.data,
       Effect.writeFile frRich.file_path frRichWin.data] :=
  set_save_paths_one_backup_then_one_persist frRich "/new/p" (some "Windows") "t"
    [Effect.writeFile "/bt/r.fastresume.t.bkup" dRich,
     Effect.writeFile "/bt/r.fastresume" dRichWin]
    frRichWin rfl

/-- C6: for every setter invoked with `create_backup = True`, the first write
in the call's effect trace is to the derived backup path and carries exactly
the record's in-memory dictionary as it stood immediately before the call
(for `set_save_path` under a valid key; for `set_save_paths`
unconditionally, whether or not the call later fails; for `replace_paths`
whenever the primary save path holds a string, which also shows nothing is
mutated before its backup). -/
theorem backup_reflects_pre_mutation_state (fr : FastResume) (path key : String)
    (target_os : Option String) (save_file : Bool)
    (ts existing_path new_path : String) :
    (key = "save_path" ∨ key = "qBt-savePath" →
      (fr.set_save_path path key target_os save_file true ts).1.head? =
        some (Effect.writeFile (fr.backup_filename ts) fr.data)) ∧
    ((fr.set_save_paths path target_os save_file true ts).1.head? =
      some (Effect.writeFile (fr.backup_filename ts) fr.data)) ∧
    (∀ s, bdLookup fr.data "save_path" = some (.str s) →
      (fr.replace_paths existing_path new_path target_os save_file true ts).1.head? =
        some (Effect.writeFile (fr.backup_filename ts) fr.data)) := by
  refine ⟨fun hk => ?_, ?_, fun s hs => ?_⟩
  · rw [set_save_path_valid _ _ _ _ _ _ _ hk]
    simp
  · rw [set_save_paths_eq]
    cases mappedStep (bdSet (bdSet fr.data "save_path" (.str (applyOS path target_os)))
        "qBt-savePath" (.str (applyOS path target_os))) target_os <;> simp
  · have heq : fr.replace_paths existing_path new_path target_os save_file true ts =
        fr.set_save_paths (pyReplace s existing_path new_path) target_os save_file true ts := by
      unfold FastResume.replace_paths
      rw [hs]
    rw [heq, set_save_paths_eq]
    cases mappedStep (bdSet (bdSet fr.data "save_path"
        (.str (applyOS (pyReplace s existing_path new_path) target_os)))
        "qBt-savePath" (.str (applyOS (pyReplace s existing_path new_path) target_os)))
        target_os <;> simp

/-- C6 witness: the backup write heads the trace, with the pre-call
dictionary, for all three setters on concrete records. -/
theorem backup_reflects_pre_mutation_state_witness :
    (frGood.set_save_path "/q" "save_path" none false true "t").1.head? =
      some (Effect.writeFile (frGood.backup_filename "t") frGood.data) ∧
    (frRich.set_save_paths "/new/p" (some "Windows") true true "t").1.head? =
      some (Effect.writeFile (frRich.backup_filename "t") frRich.data) ∧
    (frGood.replace_paths "/data" "/new" (some "Linux") true true "t").1.head? =
      some (Effect.writeFile (frGood.backup_filename "t") frGood.data) :=
  ⟨(backup_reflects_pre_mutation_state frGood "/q" "save_path" none false "t"
      "/data" "/new").1 (Or.inl rfl),
   (backup_reflects_pre_mutation_state frRich "/new/p" "save_path" (some "Windows") true
      "t" "/data" "/new").2.1,
   (backup_reflects_pre_mutation_state frGood "/q" "save_path" (some "Linux") true "t"
      "/data" "/new").2.2 "/data/data/x" rfl⟩

/-- C7: discovery ignores directory entries without the `.fastresume`
suffix entirely (filtering them away changes nothing, so they are never
constructed or yielded); every yielded record comes from a suffix entry
whose construction succeeded and whose primary or client save path contains
the substring; and, conversely, every suffix entry the pass reaches (no
exception escaped earlier in the listing) that constructs a record
containing the substring has that record yielded. -/
theorem discover_suffix_and_substring_criteria (bt ex : String) (roe : Bool)
    (dir pre post : List (String × FileContent)) (e : String × FileContent) :
    (discover_relevant_fast_resume bt ex roe
        (dir.filter (fun e' => strEnds e'.1 ".fastresume")) =
      discover_relevant_fast_resume bt ex roe dir) ∧
    (∀ fr ∈ (discover_relevant_fast_resume bt ex roe dir).yielded,
      ∃ e' ∈ dir, strEnds e'.1 ".fastresume" = true ∧
        FastResume.mkFromFile (bt ++ "/" ++ e'.1) e'.2 = .ok fr ∧
        frMatches fr ex = some true) ∧
    (∀ fr, (discover_relevant_fast_resume bt ex roe pre).err = none →
      strEnds e.1 ".fastresume" = true →
      FastResume.mkFromFile (bt ++ "/" ++ e.1) e.2 = .ok fr →
      frMatches fr ex = some true →
      fr ∈ (discover_relevant_fast_resume bt ex roe (pre ++ e :: post)).yielded) :=
  ⟨discover_filter_suffix bt ex roe dir,
   discover_yield_sound bt ex roe dir,
   fun fr hp hs hok hm => discover_yield_reach bt ex roe pre e post fr hp hs hok hm⟩

/-- C7 witness: the yielded record of the sample directory traces back to
its suffix entry, and a matching record preceded only by a non-suffix entry
is yielded. -/
theorem discover_suffix_and_substring_criteria_witness :
    (∃ e' ∈ dirSample, strEnds e'.1 ".fastresume" = true ∧
      FastResume.mkFromFile ("/bt" ++ "/" ++ e'.1) e'.2 = .ok frGood ∧
      frMatches frGood "/data" = some true) ∧
    frGood ∈ (discover_relevant_fast_resume "/bt" "/data" true
        ([("notes.txt", FileContent.malformed)] ++
          ("a.fastresume", FileContent.decoded dGood) ::
          [("other.fastresume", FileContent.decoded dOther)])).yielded := by
  constructor
  · refine (discover_suffix_and_substring_criteria "/bt" "/data" false dirSample [] []
      ("x", .malformed)).2.1 frGood ?_
    rw [show (discover_relevant_fast_resume "/bt" "/data" false dirSample).yielded =
      [frGood] from rfl]
    exact List.mem_singleton.mpr rfl
  · exact (discover_suffix_and_substring_criteria "/bt" "/data" true []
      [("notes.txt", FileContent.malformed)]
      [("other.fastresume", FileContent.decoded dOther)]
      ("a.fastresume", FileContent.decoded dGood)).2.2 frGood rfl rfl rfl rfl

/-- C8: `set_save_path` with any key other than the two reserved field names
fails with `KeyError` carrying that key, performing no write at all (empty
effect trace: no backup, no persist) and leaving no updated record (so no
field changes); the error is returned, never swallowed. -/
theorem set_save_path_invalid_key_no_effect (fr : FastResume) (path key : String)
    (target_os : Option String) (save_file create_backup : Bool) (ts : String)
    (h1 : key ≠ "save_path") (h2 : key ≠ "qBt-savePath") :
    fr.set_save_path path key target_os save_file create_backup ts =
      ([], .error (.keyError key)) := by
  rw [FastResume.set_save_path, if_neg]
  rintro (h | h) <;> [exact h1 h; exact h2 h]

/-- C8 witness: a typo'd key is rejected with no effect even with backup and
persist requested. -/
theorem set_save_path_invalid_key_no_effect_witness :
    frGood.set_save_path "/p" "qBt-name" none true true "t" =
      ([], .error (.keyError "qBt-name")) :=
  set_save_path_invalid_key_no_effect frGood "/p" "qBt-name" none true true "t"
    (by decide) (by decide)

/-- C9: in a successful `set_save_paths`, when a target OS is given and the
`mapped_files` key is present (holding a list), the stored list is rewritten
to the entry-wise `convert_slashes` translation (`convertMapped`); and when
no target OS is given or the record has no `mapped_files` key, every field
other than the two reserved save-path keys — `mapped_files` included — is
left unchanged. -/
theorem set_save_paths_mapped_files_frame (fr : FastResume) (path : String)
    (target_os : Option String) (save_file create_backup : Bool) (ts : String)
    (effs : List Effect) (fr' : FastResume) :
    (∀ os l, target_os = some os → bdLookup fr.data "mapped_files" = some (.list l) →
      fr.set_save_paths path target_os save_file create_backup ts = (effs, .ok fr') →
      ∃ l', convertMapped os l = some l' ∧
        bdLookup fr'.data "mapped_files" = some (.list l')) ∧
    ((target_os = none ∨ bdLookup fr.data "mapped_files" = none) →
      fr.set_save_paths path target_os save_file create_backup ts = (effs, .ok fr') →
      ∀ k, k ≠ "save_path" → k ≠ "qBt-savePath" →
        bdLookup fr'.data k = bdLookup fr.data k) := by
  constructor
  · intro os l hos hl h
    subst hos
    obtain ⟨-, hms, -⟩ := set_save_paths_ok_struct _ _ _ _ _ _ _ _ h
    have hd2 : bdLookup (bdSet (bdSet fr.data "save_path" (.str (applyOS path (some os))))
        "qBt-savePath" (.str (applyOS path (some os)))) "mapped_files" = some (.list l) := by
      rw [bdLookup_bdSet_ne _ _ _ _ (by decide), bdLookup_bdSet_ne _ _ _ _ (by decide)]
      exact hl
    simp only [mappedStep, hd2, Option.map_eq_some'] at hms
    obtain ⟨l', hconv, hset⟩ := hms
    refine ⟨l', hconv, ?_⟩
    rw [← hset]
    exact bdLookup_bdSet_self _ _ _
  · intro h0 h k hk1 hk2
    obtain ⟨-, hms, -⟩ := set_save_paths_ok_struct _ _ _ _ _ _ _ _ h
    have hfr : fr'.data = bdSet (bdSet fr.data "save_path" (.str (applyOS path target_os)))
        "qBt-savePath" (.str (applyOS path target_os)) := by
      rcases h0 with h0 | h0
      · subst h0
        rw [mappedStep_none_os] at hms
        exact (Option.some.injEq _ _ ▸ hms).symm
      · have habs : bdLookup (bdSet (bdSet fr.data "save_path"
            (.str (applyOS path target_os))) "qBt-savePath"
            (.str (applyOS path target_os))) "mapped_files" = none := by
          rw [bdLookup_bdSet_ne _ _ _ _ (by decide), bdLookup_bdSet_ne _ _ _ _ (by decide)]
          exact h0
        rw [mappedStep_absent _ _ habs] at hms
        exact (Option.some.injEq _ _ ▸ hms).symm
    rw [hfr, bdLookup_bdSet_ne _ _ _ _ (Ne.symm hk2), bdLookup_bdSet_ne _ _ _ _ (Ne.symm hk1)]

/-- C9 witness: the Windows-targeted call rewrites `mapped_files` through the
translator; the OS-less call leaves the unknown `extra` field untouched. -/
theorem set_save_paths_mapped_files_frame_witness :
    (∃ l', convertMapped "Windows" [BValue.str "a\\b", BValue.str "c"] = some l' ∧
      bdLookup frRichWin.data "mapped_files" = some (.list l')) ∧
    bdLookup frRichNone.data "extra" = bdLookup frRich.data "extra" :=
  ⟨(set_save_paths_mapped_files_frame frRich "/new/p" (some "Windows") true true "t"
      [Effect.writeFile "/bt/r.fastresume.t.bkup" dRich,
       Effect.writeFile "/bt/r.fastresume" dRichWin] frRichWin).1
      "Windows" [BValue.str "a\\b", BValue.str "c"] rfl rfl rfl,
   (set_save_paths_mapped_files_frame frRich "/new/p" none true false "t"
      [Effect.writeFile "/bt/r.fastresume" dRichNone] frRichNone).2
      (Or.inl rfl) rfl "extra" (by decide) (by decide)⟩

/-- C10: after a successful `set_save_paths`, both reserved keys hold the
same value — the input path with the same translation applied — so the two
save-path fields are equal; and hence after a successful `replace_paths`
(which delegates to `set_save_paths`) the two fields are equal as well. -/
theorem set_save_paths_equalizes_save_paths (fr : FastResume) (path : String)
    (target_os : Option String) (save_file create_backup : Bool) (ts : String)
    (effs : List Effect) (fr' : FastResume) (existing_path new_path : String) :
    (fr.set_save_paths path target_os save_file create_backup ts = (effs, .ok fr') →
      bdLookup fr'.data "save_path" = some (.str (applyOS path target_os)) ∧
      bdLookup fr'.data "qBt-savePath" = some (.str (applyOS path target_os))) ∧
    (fr.replace_paths existing_path new_path target_os save_file create_backup ts =
        (effs, .ok fr') →
      bdLookup fr'.data "save_path" = bdLookup fr'.data "qBt-savePath") := by
  constructor
  · exact set_save_paths_save_keys _ _ _ _ _ _ _ _
  · intro h
    obtain ⟨s, -, h'⟩ := replace_paths_ok _ _ _ _ _ _ _ _ _ h
    obtain ⟨h1, h2⟩ := set_save_paths_save_keys _ _ _ _ _ _ _ _ h'
    rw [h1, h2]

/-- C10 witness: both parts on concrete successful calls. -/
theorem set_save_paths_equalizes_save_paths_witness :
    (bdLookup frRichWin.data "save_path" =
        some (.str (applyOS "/new/p" (some "Windows"))) ∧
      bdLookup frRichWin.data "qBt-savePath" =
        some (.str (applyOS "/new/p" (some "Windows")))) ∧
    bdLookup (FastResume.mk "/bt/a.fastresume"
        [("save_path", BValue.str "/new/new/x"), ("qBt-savePath", BValue.str "/new/new/x")]).data
        "save_path" =
      bdLookup (FastResume.mk "/bt/a.fastresume"
        [("save_path", BValue.str "/new/new/x"), ("qBt-savePath", BValue.str "/new/new/x")]).data
        "qBt-savePath" :=
  ⟨(set_save_paths_equalizes_save_paths frRich "/new/p" (some "Windows") true true "t"
      [Effect.writeFile "/bt/r.fastresume.t.bkup" dRich,
       Effect.writeFile "/bt/r.fastresume" dRichWin] frRichWin "x" "y").1 rfl,
   (set_save_paths_equalizes_save_paths frGood "x" none false false "t" []
      ⟨"/bt/a.fastresume",
       [("save_path", BValue.str "/new/new/x"), ("qBt-savePath", BValue.str "/new/new/x")]⟩
      "/data" "/new").2 rfl⟩
